import Mathlib

/-!
Verification of the session / token / rate-limit core of the `form`
authentication service, as a shallow embedding in Lean.

Embedding conventions:
* Timestamps are milliseconds since the epoch, modelled as `Int`
  (`Date.now()` / SQL `NOW()` become an explicit `now : Time` parameter).
* The relational store becomes an explicit `Store` record of row lists;
  SQL `SELECT` becomes `List.filter` / `List.find?`, `UPDATE` becomes
  `List.map` over rows matching the `WHERE` clause (evaluated on the
  pre-update row, as in SQL), `DELETE` becomes `List.filter`, and the
  `rowCount` of an `UPDATE` is the number of matching rows.
* SQL `is_revoked = FALSE OR is_revoked IS NULL` is modelled by a plain
  `Bool` flag with `NULL ↦ false`.
* `crypto.randomBytes` outputs (fresh tokens) are supplied by the caller
  as explicit parameters; freshness/  distinctness become hypotheses.
* `createHash('sha256')` is modelled as an injective tagged encoding:
  the development treats SHA-256 as collision-free, which is the
  code's own working assumption for hashed-at-rest token lookup.
* `bcrypt.hash` output is likewise a caller-supplied opaque string.
-/

namespace Form

/-- Milliseconds since the epoch, as produced by `Date.now()`. -/
abbrev Time := Int

/-- Model of `hashToken` (`utils/token.js` / `sessionService.js`):
`createHash('sha256').update(token).digest('hex')`, modelled as an
injective encoding of the input (SHA-256 assumed collision-free). -/
def hashToken (token : String) : String := "sha256:" ++ token

/-- JS `String.prototype.toLowerCase`, modelled characterwise (the emails
involved are ASCII). -/
def jsToLower (s : String) : String := ⟨s.data.map Char.toLower⟩

/-- JS `String.prototype.trim`: strip leading and trailing whitespace. -/
def jsTrim (s : String) : String :=
  ⟨((s.data.dropWhile Char.isWhitespace).reverse.dropWhile Char.isWhitespace).reverse⟩

/-- A row of the `users` table (columns used by the core). -/
structure User where
  id : Nat
  email : String
  passwordHash : String
  emailVerified : Bool
  role : Option String
deriving Repr, DecidableEq

/-- A row of the `sessions` table. `token` stores whatever the code put
there (normally a SHA-256 digest; legacy rows held the raw token). -/
structure Session where
  id : Nat
  userId : Nat
  token : String
  expiresAt : Time
  isRevoked : Bool
  createdAt : Time
  lastActivityAt : Time
  ipAddress : Option String
  userAgent : Option String
deriving Repr, DecidableEq

/-- A row of the `password_reset_tokens` table; `token` stores the hash. -/
structure ResetToken where
  id : Nat
  userId : Nat
  token : String
  expiresAt : Time
  used : Bool
deriving Repr, DecidableEq

/-- A row of the `email_verification_tokens` table; in this subsystem the
token is stored in plaintext. -/
structure VerificationToken where
  id : Nat
  userId : Nat
  token : String
  expiresAt : Time
deriving Repr, DecidableEq

/-- The relational store. `next…Id` model the DB id sequences. -/
structure Store where
  users : List User
  sessions : List Session
  resetTokens : List ResetToken
  verificationTokens : List VerificationToken
  nextSessionId : Nat
  nextResetTokenId : Nat
  nextVerificationTokenId : Nat
deriving Repr, DecidableEq

/-- `config.session` fields used by `sessionService.js`
(`expiresInMs` default 86400000; `SESSION_CONFIG.maxConcurrentSessions`
default 0 = unlimited). -/
structure SessionConfig where
  expiresInMs : Time
  maxConcurrentSessions : Nat
deriving Repr, DecidableEq

def defaultSessionConfig : SessionConfig :=
  { expiresInMs := 86400000, maxConcurrentSessions := 0 }

/-- The SQL liveness clause used throughout `sessionService.js`:
`expires_at > NOW() AND (is_revoked = FALSE OR is_revoked IS NULL)`. -/
def sessionLive (now : Time) (s : Session) : Bool :=
  decide (now < s.expiresAt) && !s.isRevoked

/-- `SELECT … FROM users WHERE id = uid` (first row). -/
def findUser (users : List User) (uid : Nat) : Option User :=
  users.find? (fun u => u.id == uid)

/-- Rows of the `validateSession` query: sessions matching the stored
token value, live at `now`, joined with their owning user. -/
def sessionRows (stored : String) (now : Time) (st : Store) : List (Session × User) :=
  st.sessions.filterMap (fun s =>
    if s.token == stored && sessionLive now s then
      (findUser st.users s.userId).map (fun u => (s, u))
    else none)

/-- Result shape of `validateSession`:
`{valid:false}` or `{valid:true, sessionId, user:{id,email,role}, expiresAt, …}`. -/
inductive SessionValidation where
  | invalid
  | valid (sessionId : Nat) (userId : Nat) (email : String) (role : String) (expiresAt : Time)
deriving Repr, DecidableEq

def SessionValidation.isValid : SessionValidation → Bool
  | .invalid => false
  | .valid _ _ _ _ _ => true

/-- `updateLastActivity` (`sessionService.js`):
`UPDATE sessions SET last_activity_at = NOW() WHERE id = $1`. -/
def updateLastActivity (sid : Nat) (now : Time) (st : Store) : Store :=
  { st with sessions := st.sessions.map (fun s =>
      if s.id == sid then { s with lastActivityAt := now } else s) }

/-- The hit payload `validateSession` builds from a joined row
(`role || 'user'` null-coalescing included). -/
def sessionHit (s : Session) (u : User) : SessionValidation :=
  .valid s.id s.userId u.email (u.role.getD "user") s.expiresAt

/-- `validateSession(token)` (`sessionService.js` lines 133–195): hash the
candidate and look it up among live sessions; if that misses, fall back
to a legacy raw-token lookup; on a hit, touch `last_activity_at`. -/
def validateSession (token : String) (now : Time) (st : Store) :
    SessionValidation × Store :=
  match (sessionRows (hashToken token) now st).head? with
  | some (s, u) => (sessionHit s u, updateLastActivity s.id now st)
  | none =>
    match (sessionRows token now st).head? with
    | some (s, u) => (sessionHit s u, updateLastActivity s.id now st)
    | none => (.invalid, st)

/-- Number of rows the refresh/rotate `UPDATE … WHERE token = $tok AND
live` clause matches (`result.rowCount`). -/
def liveTokenMatchCount (stored : String) (now : Time) (st : Store) : Nat :=
  (st.sessions.filter (fun s => s.token == stored && sessionLive now s)).length

/-- The row transformation of `refreshSession`'s UPDATE:
`SET expires_at = $newExp, last_activity_at = NOW()` on matching rows. -/
def refreshApply (stored : String) (now newExp : Time) (sessions : List Session) :
    List Session :=
  sessions.map (fun s =>
    if s.token == stored && sessionLive now s then
      { s with expiresAt := newExp, lastActivityAt := now }
    else s)

structure RefreshResult where
  success : Bool
  expiresAt : Option Time
deriving Repr, DecidableEq

/-- `refreshSession(token)` (`sessionService.js` lines 200–232): extend a
still-valid session's expiry to `now + expiresInMs`; hashed lookup with
legacy raw fallback; `{success:false}` and no mutation otherwise. -/
def refreshSession (cfg : SessionConfig) (token : String) (now : Time) (st : Store) :
    RefreshResult × Store :=
  let tokenHash := hashToken token
  let newExp := now + cfg.expiresInMs
  if 0 < liveTokenMatchCount tokenHash now st then
    (⟨true, some newExp⟩, { st with sessions := refreshApply tokenHash now newExp st.sessions })
  else if 0 < liveTokenMatchCount token now st then
    (⟨true, some newExp⟩, { st with sessions := refreshApply token now newExp st.sessions })
  else
    (⟨false, none⟩, st)

/-- The row transformation of `rotateSessionToken`'s UPDATE:
`SET token = $newStored, expires_at = $newExp, last_activity_at = NOW()`. -/
def rotateApply (stored newStored : String) (now newExp : Time)
    (sessions : List Session) : List Session :=
  sessions.map (fun s =>
    if s.token == stored && sessionLive now s then
      { s with token := newStored, expiresAt := newExp, lastActivityAt := now }
    else s)

structure RotateResult where
  success : Bool
  token : Option String
  expiresAt : Option Time
deriving Repr, DecidableEq

/-- `rotateSessionToken(oldToken)` (`sessionService.js` lines 237–272):
replace the stored token hash of a live session with the hash of a fresh
token `newToken` (the `generateOpaqueToken()` output, supplied here as a
parameter) and reset its expiry; hashed lookup with legacy raw fallback. -/
def rotateSessionToken (cfg : SessionConfig) (oldToken newToken : String)
    (now : Time) (st : Store) : RotateResult × Store :=
  let oldHash := hashToken oldToken
  let newHash := hashToken newToken
  let newExp := now + cfg.expiresInMs
  if 0 < liveTokenMatchCount oldHash now st then
    (⟨true, some newToken, some newExp⟩,
      { st with sessions := rotateApply oldHash newHash now newExp st.sessions })
  else if 0 < liveTokenMatchCount oldToken now st then
    (⟨true, some newToken, some newExp⟩,
      { st with sessions := rotateApply oldToken newHash now newExp st.sessions })
  else
    (⟨false, none, none⟩, st)

/-- `getActiveSessionCount` (`sessionService.js`): `COUNT(*)` of the
user's live sessions. -/
def activeSessionCount (uid : Nat) (now : Time) (st : Store) : Nat :=
  (st.sessions.filter (fun s => s.userId == uid && sessionLive now s)).length

/-- `ORDER BY created_at ASC LIMIT 1` over a row list: the first row with
minimal `created_at` (ties broken by list position, as a DB may). -/
def minByCreated : List Session → Option Session :=
  List.foldl (fun acc s =>
    match acc with
    | none => some s
    | some t => if s.createdAt < t.createdAt then some s else some t) none

/-- The subquery of `revokeOldestSession`: id of the user's oldest
(earliest-created) live session. -/
def oldestActiveSessionId (uid : Nat) (now : Time) (st : Store) : Option Nat :=
  (minByCreated (st.sessions.filter (fun s => s.userId == uid && sessionLive now s))).map
    (fun s => s.id)

/-- The row transformation of `UPDATE sessions SET is_revoked = TRUE
WHERE id = $sid`. -/
def revokeById (sid : Nat) (s : Session) : Session :=
  if s.id == sid then { s with isRevoked := true } else s

/-- `revokeOldestSession` (`sessionService.js` lines 299–310):
`UPDATE sessions SET is_revoked = TRUE WHERE id = (oldest-live-subquery)`. -/
def revokeOldestSession (uid : Nat) (now : Time) (st : Store) : Store :=
  match oldestActiveSessionId uid now st with
  | none => st
  | some sid =>
    { st with sessions := st.sessions.map (revokeById sid) }

/-- `createSimpleSession(userId, metadata)` (`sessionService.js` lines
106–128): if a cap is configured and reached, first revoke the oldest
live session, then insert a new row holding the hash of the fresh token
(`generateOpaqueToken()` output, supplied as `newToken`). Returns the
plaintext token and expiry. -/
def createSimpleSession (cfg : SessionConfig) (uid : Nat) (newToken : String)
    (ip userAgent : Option String) (now : Time) (st : Store) :
    (String × Time) × Store :=
  let st1 :=
    if 0 < cfg.maxConcurrentSessions ∧
        cfg.maxConcurrentSessions ≤ activeSessionCount uid now st then
      revokeOldestSession uid now st
    else st
  let expiresAt := now + cfg.expiresInMs
  let snew : Session :=
    { id := st1.nextSessionId, userId := uid, token := hashToken newToken,
      expiresAt := expiresAt, isRevoked := false, createdAt := now,
      lastActivityAt := now, ipAddress := ip, userAgent := userAgent }
  ((newToken, expiresAt),
    { st1 with sessions := st1.sessions ++ [snew], nextSessionId := st1.nextSessionId + 1 })

/-! ### Rate limiter (`utils/rateLimiter.js`) -/

/-- `config.rateLimit` (`config.js`): max 5 attempts in a 15 min window,
30 min lockout. -/
structure RateLimitConfig where
  maxAttempts : Nat
  windowMs : Time
  lockoutDurationMs : Time
deriving Repr, DecidableEq

def defaultRateLimitConfig : RateLimitConfig :=
  { maxAttempts := 5, windowMs := 900000, lockoutDurationMs := 1800000 }

/-- Value of the in-memory `loginAttempts` map:
`{ count, firstAttempt, lockedUntil }`. -/
structure AttemptRecord where
  count : Nat
  firstAttempt : Time
  lockedUntil : Option Time
deriving Repr, DecidableEq

/-- The `loginAttempts` JS `Map`, modelled as an association list
(observable only through get/set/delete on keys). -/
abbrev AttemptMap := List (String × AttemptRecord)

/-- `getAttemptKey(email, ip)`. -/
def getAttemptKey (email ip : String) : String := email ++ ":" ++ ip

def mapGet (m : AttemptMap) (k : String) : Option AttemptRecord :=
  (m.find? (fun p => p.1 == k)).map (fun p => p.2)

def mapDelete (k : String) (m : AttemptMap) : AttemptMap :=
  m.filter (fun p => p.1 != k)

def mapSet (k : String) (v : AttemptRecord) (m : AttemptMap) : AttemptMap :=
  (k, v) :: mapDelete k m

/-- `recordFailedAttempt(email, ip)` (`rateLimiter.js` lines 57–80):
start or window-reset the record, increment the count, and set the
lockout deadline once the count reaches the configured maximum. -/
def recordFailedAttempt (cfg : RateLimitConfig) (email ip : String) (now : Time)
    (m : AttemptMap) : AttemptRecord × AttemptMap :=
  let key := getAttemptKey email ip
  let attempts0 := (mapGet m key).getD { count := 0, firstAttempt := now, lockedUntil := none }
  let attempts1 :=
    if cfg.windowMs < now - attempts0.firstAttempt then
      { count := 0, firstAttempt := now, lockedUntil := none }
    else attempts0
  let newCount := attempts1.count + 1
  let newLocked :=
    if cfg.maxAttempts ≤ newCount then some (now + cfg.lockoutDurationMs)
    else attempts1.lockedUntil
  let entry : AttemptRecord :=
    { count := newCount, firstAttempt := attempts1.firstAttempt, lockedUntil := newLocked }
  (entry, mapSet key entry m)

/-- Result shape of `isLoginAllowed`: `{allowed:true, remainingAttempts?}`
or `{allowed:false, reason:'locked', remainingMs}`. -/
inductive RateCheck where
  | allowed (remainingAttempts : Option Nat)
  | lockedOut (remainingMs : Time)
deriving Repr, DecidableEq

def RateCheck.isAllowed : RateCheck → Bool
  | .allowed _ => true
  | .lockedOut _ => false

/-- The JS guard `attempts.lockedUntil && now < attempts.lockedUntil`. -/
def lockedNow (now : Time) (attempts : AttemptRecord) : Bool :=
  match attempts.lockedUntil with
  | some lu => decide (now < lu)
  | none => false

/-- `isLoginAllowed(email, ip)` (`rateLimiter.js` lines 85–119): deny
while locked with a future deadline; once the deadline has passed (or a
full-count record has an elapsed window), delete the record (lazy
expiry) and allow; otherwise allow with the remaining attempt budget. -/
def isLoginAllowed (cfg : RateLimitConfig) (email ip : String) (now : Time)
    (m : AttemptMap) : RateCheck × AttemptMap :=
  let key := getAttemptKey email ip
  match mapGet m key with
  | none => (.allowed none, m)
  | some attempts =>
    if lockedNow now attempts then
      (.lockedOut ((attempts.lockedUntil.getD 0) - now), m)
    else if cfg.maxAttempts ≤ attempts.count then
      (.allowed none, mapDelete key m)
    else
      (.allowed (some (cfg.maxAttempts - attempts.count)), m)

/-- `clearAttempts(email, ip)` (`rateLimiter.js` lines 124–127). -/
def clearAttempts (email ip : String) (m : AttemptMap) : AttemptMap :=
  mapDelete (getAttemptKey email ip) m

/-- `getAttemptCount(email, ip)`. -/
def getAttemptCount (email ip : String) (m : AttemptMap) : Nat :=
  ((mapGet m (getAttemptKey email ip)).map (fun a => a.count)).getD 0

/-! ### Login (`services/authService.js`) -/

/-- Outcome of `validateCredentials` (users-table lookup plus
`bcrypt.compare`), modelled as an oracle input to `login`. -/
inductive CredentialOutcome where
  | ok (userId : Nat) (email : String)
  | invalidCredentials
  | emailNotVerified
deriving Repr, DecidableEq

inductive LoginResult where
  | invalidInput
  | rateLimited
  | emailNotVerified
  | invalidCredentials (remaining : Int)
  | success (userId : Nat) (token : String) (expiresAt : Time)
deriving Repr, DecidableEq

/-- `login(email, password, ip, userAgent)` (`authService.js` lines
52–105): input check, then the rate-limit gate, then credential
validation; a failed validation records a failed attempt, a success
clears the key and creates a session. The rate-limited branch returns
before `recordFailedAttempt` is ever reached. -/
def login (cfg : RateLimitConfig) (scfg : SessionConfig)
    (credentials : CredentialOutcome) (email password ip : String)
    (userAgent : Option String) (newToken : String) (now : Time)
    (m : AttemptMap) (st : Store) : LoginResult × AttemptMap × Store :=
  if email.isEmpty || password.isEmpty then
    (.invalidInput, m, st)
  else
    let check := isLoginAllowed cfg email ip now m
    if !check.1.isAllowed then
      (.rateLimited, check.2, st)
    else
      match credentials with
      | .emailNotVerified =>
        let r := recordFailedAttempt cfg email ip now check.2
        (.emailNotVerified, r.2, st)
      | .invalidCredentials =>
        let r := recordFailedAttempt cfg email ip now check.2
        (.invalidCredentials ((cfg.maxAttempts : Int) - getAttemptCount email ip r.2), r.2, st)
      | .ok uid _ =>
        let m2 := clearAttempts email ip check.2
        let created := createSimpleSession scfg uid newToken (some ip) userAgent now st
        (.success uid created.1.1 created.1.2, m2, created.2)

/-! ### Validation utilities (`utils/validation.js`) -/

structure ValidationResult where
  valid : Bool
  error : Option String
deriving Repr, DecidableEq

/-- The regex `^[^\s@]+@[^\s@]+\.[^\s@]+$`: exactly one `@`, no
whitespace, nonempty local part, and a domain that splits as
`B.C` with `B`, `C` nonempty (i.e. an interior dot). -/
def emailRegexTest (s : String) : Bool :=
  let l := s.data
  let localPart := l.takeWhile (fun c => c != '@')
  let rest := l.dropWhile (fun c => c != '@')
  match rest with
  | [] => false
  | _ :: domain =>
    !localPart.isEmpty && localPart.all (fun c => !c.isWhitespace) &&
    !domain.isEmpty && domain.all (fun c => !c.isWhitespace && c != '@') &&
    ((domain.drop 1).dropLast.contains '.')

/-- `validateEmail(email)` (`validation.js` lines 13–33). -/
def validateEmail (email : String) : ValidationResult :=
  if email.isEmpty then { valid := false, error := some "Email is required" }
  else
    let trimmed := jsToLower (jsTrim email)
    if trimmed.isEmpty then { valid := false, error := some "Email is required" }
    else if 255 < trimmed.length then
      { valid := false, error := some "Email must be 255 characters or less" }
    else if !emailRegexTest trimmed then
      { valid := false, error := some "Invalid email format" }
    else { valid := true, error := none }

/-- `validatePassword(password)` (`validation.js` lines 40–67); the
character classes `[a-z]`, `[A-Z]`, `[0-9]` are the ASCII ranges. -/
def validatePassword (password : String) : ValidationResult :=
  if password.isEmpty then { valid := false, error := some "Password is required" }
  else if password.length < 8 then
    { valid := false, error := some "Password must be at least 8 characters" }
  else if 128 < password.length then
    { valid := false, error := some "Password must be 128 characters or less" }
  else if !(password.data.any (fun c => decide ('a' ≤ c ∧ c ≤ 'z'))) then
    { valid := false, error := some "Password must contain at least one lowercase letter" }
  else if !(password.data.any (fun c => decide ('A' ≤ c ∧ c ≤ 'Z'))) then
    { valid := false, error := some "Password must contain at least one uppercase letter" }
  else if !(password.data.any (fun c => decide ('0' ≤ c ∧ c ≤ '9'))) then
    { valid := false, error := some "Password must contain at least one number" }
  else { valid := true, error := none }

/-- `validatePasswordMatch(password, confirmPassword)`. -/
def validatePasswordMatch (password confirmPassword : String) : ValidationResult :=
  if password ≠ confirmPassword then
    { valid := false, error := some "Passwords do not match" }
  else { valid := true, error := none }

/-! ### Password reset service (`services/passwordResetService.js`) -/

/-- `config.passwordReset` (`config.js`): 1-hour token lifetime,
sessions invalidated on reset. -/
structure ResetConfig where
  tokenExpirationHours : Nat
  invalidateSessionsOnPasswordReset : Bool
deriving Repr, DecidableEq

def defaultResetConfig : ResetConfig :=
  { tokenExpirationHours := 1, invalidateSessionsOnPasswordReset := true }

def hourMs : Time := 3600000

/-- `{success, message}` acknowledgement object. -/
structure AckResponse where
  success : Bool
  message : String
deriving Repr, DecidableEq

/-- The `successResponse` constant of `requestPasswordReset`, returned
both when the email exists and when it does not. -/
def resetRequestSuccessResponse : AckResponse :=
  { success := true,
    message := "If an account with that email exists, a password reset link has been sent." }

/-- `SELECT id, email FROM users WHERE email = $1` (first row). -/
def findUserByEmail (users : List User) (email : String) : Option User :=
  users.find? (fun u => u.email == email)

/-- The invalidation UPDATE of `requestPasswordReset`:
`SET used = TRUE WHERE user_id = $1 AND used = FALSE`. -/
def markUserResetTokensUsed (uid : Nat) (tokens : List ResetToken) : List ResetToken :=
  tokens.map (fun t => if t.userId == uid && !t.used then { t with used := true } else t)

/-- `requestPasswordReset(email)` (`passwordResetService.js` lines
14–64). `plainToken` is the `generateToken` output; `mailFails` injects
a failure of `sendPasswordResetEmail`. The whole body is inside a
`try/catch` whose catch logs and re-throws
`'Failed to process password reset request'`; the individual queries are
not wrapped in a transaction, so a mail failure leaves the already-run
token updates in place. -/
def requestPasswordReset (cfg : ResetConfig) (email plainToken : String)
    (mailFails : Bool) (now : Time) (st : Store) :
    Except String AckResponse × Store :=
  match findUserByEmail st.users (jsTrim (jsToLower email)) with
  | none => (.ok resetRequestSuccessResponse, st)
  | some user =>
    let tokens1 := markUserResetTokensUsed user.id st.resetTokens
    let newRecord : ResetToken :=
      { id := st.nextResetTokenId, userId := user.id, token := hashToken plainToken,
        expiresAt := now + (cfg.tokenExpirationHours : Time) * hourMs, used := false }
    let st1 :=
      { st with
        resetTokens := tokens1 ++ [newRecord]
        nextResetTokenId := st.nextResetTokenId + 1 }
    if mailFails then
      (.error "Failed to process password reset request", st1)
    else
      (.ok resetRequestSuccessResponse, st1)

/-- Result shape of `validateResetToken`. -/
inductive TokenValidation where
  | invalid (error : String)
  | valid (userId : Nat) (email : String) (tokenId : Nat)
deriving Repr, DecidableEq

/-- `validateResetToken(token)` (`passwordResetService.js` lines 71–113):
look the hash up (no expiry/used filter in the query), then check the
`used` flag and the expiry of the first row. -/
def validateResetToken (token : String) (now : Time) (st : Store) : TokenValidation :=
  if token.isEmpty then .invalid "Token is required"
  else
    let hashed := hashToken token
    match (st.resetTokens.filterMap (fun t =>
        if t.token == hashed then (findUser st.users t.userId).map (fun u => (t, u))
        else none)).head? with
    | none => .invalid "Invalid or expired reset token"
    | some (t, u) =>
      if t.used then .invalid "This reset token has already been used"
      else if t.expiresAt < now then .invalid "This reset token has expired"
      else .valid t.userId u.email t.id

/-- Failure injection for the three queries inside the `resetPassword`
transaction; a `true` flag makes that `client.query` throw. -/
structure TxFailures where
  updatePassword : Bool
  markTokenUsed : Bool
  deleteSessions : Bool
deriving Repr, DecidableEq

def noTxFailures : TxFailures := ⟨false, false, false⟩

inductive ResetResult where
  | failure (error message : String)
  | success (message : String)
  | thrown (message : String)
deriving Repr, DecidableEq

/-- `UPDATE users SET password_hash = $1 … WHERE id = $2`. -/
def setUserPassword (uid : Nat) (newHash : String) (users : List User) : List User :=
  users.map (fun u => if u.id == uid then { u with passwordHash := newHash } else u)

/-- `UPDATE password_reset_tokens SET used = TRUE WHERE token = $1`. -/
def markResetTokenUsedByHash (hashed : String) (tokens : List ResetToken) : List ResetToken :=
  tokens.map (fun t => if t.token == hashed then { t with used := true } else t)

/-- `DELETE FROM sessions WHERE user_id = $1`. -/
def deleteUserSessions (uid : Nat) (sessions : List Session) : List Session :=
  sessions.filter (fun s => s.userId != uid)

/-- `resetPassword(token, newPassword, confirmPassword)`
(`passwordResetService.js` lines 122–182): confirmation and strength
validation, token validation, then a `BEGIN`/`COMMIT` transaction
updating the password (`newPasswordHash` models the `bcrypt.hash`
output), marking the token used and deleting the user's sessions; any
failing query triggers `ROLLBACK`, restoring the pre-transaction store,
and re-throws `'Failed to reset password'`. -/
def resetPassword (cfg : ResetConfig) (token newPassword confirmPassword : String)
    (newPasswordHash : String) (failures : TxFailures) (now : Time) (st : Store) :
    ResetResult × Store :=
  let matchValidation := validatePasswordMatch newPassword confirmPassword
  if !matchValidation.valid then
    (.failure "validation_error" (matchValidation.error.getD ""), st)
  else
    let passwordValidation := validatePassword newPassword
    if !passwordValidation.valid then
      (.failure "validation_error" (passwordValidation.error.getD ""), st)
    else
      match validateResetToken token now st with
      | .invalid e => (.failure "invalid_token" e, st)
      | .valid uid _ _ =>
        if failures.updatePassword then (.thrown "Failed to reset password", st)
        else
          let st1 := { st with users := setUserPassword uid newPasswordHash st.users }
          if failures.markTokenUsed then (.thrown "Failed to reset password", st)
          else
            let st2 := { st1 with
              resetTokens := markResetTokenUsedByHash (hashToken token) st1.resetTokens }
            if failures.deleteSessions then (.thrown "Failed to reset password", st)
            else
              let st3 :=
                if cfg.invalidateSessionsOnPasswordReset then
                  { st2 with sessions := deleteUserSessions uid st2.sessions }
                else st2
              (.success "Password has been reset successfully. Please log in with your new password.",
                st3)

/-! ### Email verification resend (`auth/registration.js`) -/

inductive ResendResult where
  | failure (error : String)
  | success (message : String)
deriving Repr, DecidableEq

/-- `resendVerificationEmail(email)` (`registration.js` lines 187–246):
validate the email, look the user up; a missing account yields a generic
success message, a verified one a distinct failure; otherwise delete the
user's verification tokens, insert a fresh one (`newToken` models the
`generateToken()` output, stored in plaintext in this subsystem), send
the mail and acknowledge. -/
def resendVerificationEmail (verificationExpiryHours : Nat) (email newToken : String)
    (now : Time) (st : Store) : ResendResult × Store :=
  let v := validateEmail email
  if !v.valid then (.failure (v.error.getD ""), st)
  else
    let normalizedEmail := jsToLower (jsTrim email)
    match findUserByEmail st.users normalizedEmail with
    | none => (.success "If an account exists, a verification email has been sent", st)
    | some user =>
      if user.emailVerified then (.failure "Email is already verified", st)
      else
        let tokens1 := st.verificationTokens.filter (fun t => t.userId != user.id)
        let newRecord : VerificationToken :=
          { id := st.nextVerificationTokenId, userId := user.id, token := newToken,
            expiresAt := now + (verificationExpiryHours : Time) * hourMs }
        (.success "Verification email sent",
          { st with verificationTokens := tokens1 ++ [newRecord],
                    nextVerificationTokenId := st.nextVerificationTokenId + 1 })

/-! ### Derived observers and iteration helpers -/

/-- A sequence of `recordFailedAttempt` calls at the given times. -/
def recordFailures (cfg : RateLimitConfig) (email ip : String) (times : List Time)
    (m : AttemptMap) : AttemptMap :=
  times.foldl (fun acc t => (recordFailedAttempt cfg email ip t acc).2) m

/-- The user's usable reset tokens, with usability exactly as
`validateResetToken` checks it: not `used` and not `expires_at < now`. -/
def usableResetTokensFor (uid : Nat) (now : Time) (tokens : List ResetToken) :
    List ResetToken :=
  tokens.filter (fun t => t.userId == uid && !t.used && !decide (t.expiresAt < now))

/-- Every `sessions` column except `expires_at` and `last_activity_at`. -/
def sessionIdentityFields (s : Session) :
    Nat × Nat × String × Bool × Time × Option String × Option String :=
  (s.id, s.userId, s.token, s.isRevoked, s.createdAt, s.ipAddress, s.userAgent)

/-! ### Concrete fixtures (used by witnesses and counterexamples) -/

def aliceUser : User := ⟨1, "alice@example.com", "bcrypt-old", true, none⟩

def bobUser : User := ⟨2, "bob@example.com", "bcrypt-b", false, none⟩

/-- A session stored the normal way: `token` holds the SHA-256 digest. -/
def hashedSession : Session := ⟨10, 1, hashToken "tokA", 1000, false, 0, 0, none, none⟩

/-- A legacy session row whose `token` column holds the raw token. -/
def legacySession : Session := ⟨11, 1, "rawtok", 1000, false, 5, 0, none, none⟩

def oldResetToken : ResetToken := ⟨100, 1, hashToken "oldreset", 99999, false⟩

def baseStore : Store :=
  ⟨[aliceUser, bobUser], [hashedSession, legacySession], [oldResetToken], [], 12, 201, 301⟩

/-! ### Helper lemmas -/

theorem hashToken_injective : Function.Injective hashToken := by
  intro a b h
  have hdata : ("sha256:".data ++ a.data) = ("sha256:".data ++ b.data) := by
    have := congrArg String.data h
    simpa [hashToken, String.data_append] using this
  have hab : a.data = b.data := List.append_cancel_left hdata
  cases a; cases b; exact congrArg String.mk hab

theorem head?_some_mem {α : Type} (l : List α) (h : l ≠ []) :
    ∃ x, l.head? = some x ∧ x ∈ l := by
  cases l with
  | nil => exact absurd rfl h
  | cons a t => exact ⟨a, rfl, List.mem_cons_self a t⟩

theorem mapGet_mapDelete_self (k : String) (m : AttemptMap) :
    mapGet (mapDelete k m) k = none := by
  induction m with
  | nil => rfl
  | cons p t ih =>
    by_cases h : p.1 = k
    · simp only [mapDelete, mapGet] at ih ⊢
      simp [List.filter, h]
    · simp only [mapDelete, List.filter] at ih ⊢
      simp only [bne, h, beq_iff_eq, if_neg h]
      by_cases hb : (p.1 == k) = true
      · exact absurd (eq_of_beq hb) h
      · simp only [hb, Bool.not_false, mapGet, List.find?, mapGet] at ih ⊢
        exact ih

theorem mapGet_mapSet_self (k : String) (v : AttemptRecord) (m : AttemptMap) :
    mapGet (mapSet k v m) k = some v := by
  simp [mapGet, mapSet, List.find?]

theorem mem_sessionRows (stored : String) (now : Time) (st : Store)
    (x : Session × User) :
    x ∈ sessionRows stored now st ↔
      x.1 ∈ st.sessions ∧ x.1.token = stored ∧ sessionLive now x.1 = true ∧
        findUser st.users x.1.userId = some x.2 := by
  constructor
  · intro hx
    obtain ⟨a, ha, hfa⟩ := List.mem_filterMap.mp hx
    by_cases hc : (a.token == stored && sessionLive now a) = true
    · simp only [hc, if_pos, Option.map_eq_some'] at hfa
      obtain ⟨u, hu, hx2⟩ := hfa
      rw [Bool.and_eq_true] at hc
      obtain ⟨h1, h2⟩ := hc
      cases hx2
      exact ⟨ha, eq_of_beq h1, h2, hu⟩
    · simp [hc] at hfa
  · rintro ⟨hmem, htok, hlive, hfind⟩
    refine List.mem_filterMap.mpr ⟨x.1, hmem, ?_⟩
    have hc : (x.1.token == stored && sessionLive now x.1) = true := by
      simp [htok, hlive]
    simp [hc, hfind]

theorem sessionRows_eq_nil_iff (stored : String) (now : Time) (st : Store) :
    sessionRows stored now st = [] ↔
      ∀ x : Session × User, ¬ (x.1 ∈ st.sessions ∧ x.1.token = stored ∧
        sessionLive now x.1 = true ∧ findUser st.users x.1.userId = some x.2) := by
  rw [List.eq_nil_iff_forall_not_mem]
  constructor
  · intro h x hx
    exact h x ((mem_sessionRows stored now st x).mpr hx)
  · intro h x hx
    exact h x ((mem_sessionRows stored now st x).mp hx)

/-- The valid branch of `validateSession` fires whenever some live row
(with an owning user) matches the candidate in either representation. -/
theorem validateSession_isValid_of_exists (tok : String) (now : Time) (st : Store)
    (h : ∃ t ∈ st.sessions, (t.token = hashToken tok ∨ t.token = tok) ∧
          now < t.expiresAt ∧ t.isRevoked = false ∧
          (findUser st.users t.userId).isSome = true) :
    (validateSession tok now st).1.isValid = true := by
  obtain ⟨t, htm, hdisj, hexp, hrev, hfu⟩ := h
  obtain ⟨u, hu⟩ := Option.isSome_iff_exists.mp hfu
  have hlive : sessionLive now t = true := by
    simp [sessionLive, hexp, hrev]
  unfold validateSession
  cases hh : (sessionRows (hashToken tok) now st).head? with
  | some p => cases p; simp [SessionValidation.isValid, sessionHit]
  | none =>
    have hnil : sessionRows (hashToken tok) now st = [] :=
      List.head?_eq_none_iff.mp hh
    cases hdisj with
    | inl hhash =>
      exact absurd hnil (by
        intro hn
        exact (sessionRows_eq_nil_iff _ _ _).mp hn (t, u) ⟨htm, hhash, hlive, hu⟩)
    | inr hraw =>
      have hne : sessionRows tok now st ≠ [] := by
        intro hn
        exact (sessionRows_eq_nil_iff _ _ _).mp hn (t, u) ⟨htm, hraw, hlive, hu⟩
      obtain ⟨x, hx, _⟩ := head?_some_mem _ hne
      cases x
      simp [hx, SessionValidation.isValid, sessionHit]

/-- Conversely, a valid result exhibits a live matching row. -/
theorem exists_of_validateSession_isValid (tok : String) (now : Time) (st : Store)
    (h : (validateSession tok now st).1.isValid = true) :
    ∃ t ∈ st.sessions, (t.token = hashToken tok ∨ t.token = tok) ∧
      now < t.expiresAt ∧ t.isRevoked = false := by
  unfold validateSession at h
  cases hh : (sessionRows (hashToken tok) now st).head? with
  | some p =>
    have hmem : p ∈ sessionRows (hashToken tok) now st := by
      cases hl : sessionRows (hashToken tok) now st with
      | nil => simp [hl] at hh
      | cons a t2 => simp [hl] at hh; simp [hh, hl]
    obtain ⟨hm, htok, hlive, _⟩ := (mem_sessionRows _ _ _ _).mp hmem
    simp only [sessionLive, Bool.and_eq_true, decide_eq_true_eq,
      Bool.not_eq_true'] at hlive
    exact ⟨p.1, hm, Or.inl htok, hlive.1, hlive.2⟩
  | none =>
    rw [hh] at h
    cases hh2 : (sessionRows tok now st).head? with
    | some p =>
      have hmem : p ∈ sessionRows tok now st := by
        cases hl : sessionRows tok now st with
        | nil => simp [hl] at hh2
        | cons a t2 => simp [hl] at hh2; simp [hh2, hl]
      obtain ⟨hm, htok, hlive, _⟩ := (mem_sessionRows _ _ _ _).mp hmem
      simp only [sessionLive, Bool.and_eq_true, decide_eq_true_eq,
        Bool.not_eq_true'] at hlive
      exact ⟨p.1, hm, Or.inr htok, hlive.1, hlive.2⟩
    | none =>
      rw [hh2] at h
      simp [SessionValidation.isValid] at h

theorem recordFailedAttempt_from_some (cfg : RateLimitConfig) (email ip : String)
    (now t1 : Time) (c : Nat) (lu : Option Time) (m : AttemptMap)
    (hm : mapGet m (getAttemptKey email ip) = some ⟨c, t1, lu⟩)
    (hwin : now - t1 ≤ cfg.windowMs) :
    mapGet (recordFailedAttempt cfg email ip now m).2 (getAttemptKey email ip)
      = some ⟨c + 1, t1,
          if cfg.maxAttempts ≤ c + 1 then some (now + cfg.lockoutDurationMs) else lu⟩ := by
  have hw : ¬ cfg.windowMs < now - t1 := not_lt.mpr hwin
  simp only [recordFailedAttempt, hm, Option.getD_some, hw, if_false, if_neg hw]
  exact mapGet_mapSet_self _ _ _

theorem recordFailedAttempt_from_none (cfg : RateLimitConfig) (email ip : String)
    (now : Time) (m : AttemptMap)
    (hm : mapGet m (getAttemptKey email ip) = none) (hw0 : 0 ≤ cfg.windowMs) :
    mapGet (recordFailedAttempt cfg email ip now m).2 (getAttemptKey email ip)
      = some ⟨1, now,
          if cfg.maxAttempts ≤ 1 then some (now + cfg.lockoutDurationMs) else none⟩ := by
  have hw : ¬ cfg.windowMs < now - now := by
    rw [sub_self]; exact not_lt.mpr hw0
  simp only [recordFailedAttempt, hm, Option.getD_none, hw, if_neg hw]
  exact mapGet_mapSet_self _ _ _

/-- Fold invariant for a run of failed attempts whose times all lie within
the window opened at `t1`: the count accumulates, the window anchor stays
at `t1`, and the lockout deadline ends up at `last + lockoutDurationMs`
exactly when the final count has reached the maximum. -/
theorem recordFailures_inv (cfg : RateLimitConfig) (email ip : String) (t1 : Time)
    (ts : List Time) (hts : ∀ t ∈ ts, t - t1 ≤ cfg.windowMs) :
    ∀ (c : Nat) (lu : Option Time) (m : AttemptMap),
      mapGet m (getAttemptKey email ip) = some ⟨c, t1, lu⟩ →
      ∃ lu2, mapGet (recordFailures cfg email ip ts m) (getAttemptKey email ip)
          = some ⟨c + ts.length, t1, lu2⟩
        ∧ (∀ tl, ts.getLast? = some tl → cfg.maxAttempts ≤ c + ts.length →
            lu2 = some (tl + cfg.lockoutDurationMs))
        ∧ (c + ts.length < cfg.maxAttempts → lu2 = lu)
        ∧ (ts = [] → lu2 = lu) := by
  induction ts with
  | nil =>
    intro c lu m hm
    refine ⟨lu, by simpa [recordFailures] using hm, ?_, ?_, ?_⟩
    · intro tl h hmax; cases h
    · intro _; rfl
    · intro _; rfl
  | cons t rest ih =>
    intro c lu m hm
    have hstep := recordFailedAttempt_from_some cfg email ip t t1 c lu m hm
      (hts t (List.mem_cons_self t rest))
    have hrest : ∀ t2 ∈ rest, t2 - t1 ≤ cfg.windowMs :=
      fun t2 h2 => hts t2 (List.mem_cons_of_mem t h2)
    obtain ⟨lu2, hget, hlock, hunder, hnil⟩ :=
      ih hrest (c + 1)
        (if cfg.maxAttempts ≤ c + 1 then some (t + cfg.lockoutDurationMs) else lu)
        (recordFailedAttempt cfg email ip t m).2 hstep
    refine ⟨lu2, ?_, ?_, ?_, ?_⟩
    · have hlen : c + 1 + rest.length = c + (rest.length + 1) := by omega
      simpa [recordFailures, hlen] using hget
    · intro tl hlast hmax
      cases rest with
      | nil =>
        simp only [List.getLast?_singleton, Option.some.injEq] at hlast
        subst hlast
        have h1 : cfg.maxAttempts ≤ c + 1 := by
          simpa using hmax
        rw [hnil rfl]
        simp [h1]
      | cons r rs =>
        have hlast2 : (r :: rs).getLast? = some tl := by
          simpa [List.getLast?_cons_cons] using hlast
        have hmax2 : cfg.maxAttempts ≤ c + 1 + (r :: rs).length := by
          simp only [List.length_cons] at hmax ⊢
          omega
        exact hlock tl hlast2 hmax2
    · intro hlt
      have hlt2 : c + 1 + rest.length < cfg.maxAttempts := by
        simp only [List.length_cons] at hlt
        omega
      have h1 : ¬ cfg.maxAttempts ≤ c + 1 := by omega
      rw [hunder hlt2]
      simp [h1]
    · intro h; cases h

/-- Claim C6: after exactly `maxAttempts` failed attempts for one
(email, ip) within the window, `isLoginAllowed` returns not-allowed with
reason locked and a retry-after equal to the (positive) lockout duration;
`clearAttempts` (run on successful login) puts the count back to zero;
and once the lockout deadline passes, the key is lazily deleted (Clear)
and `isLoginAllowed` allows again. -/
theorem claim_C6_rate_limit_lockout (cfg : RateLimitConfig) (email ip : String)
    (t1 tl : Time) (ts : List Time) (m : AttemptMap)
    (hm : mapGet m (getAttemptKey email ip) = none)
    (hw0 : 0 ≤ cfg.windowMs) (hlock : 0 < cfg.lockoutDurationMs)
    (hlen : 1 + ts.length = cfg.maxAttempts)
    (hts : ∀ t ∈ ts, t - t1 ≤ cfg.windowMs)
    (hlast : (t1 :: ts).getLast? = some tl) :
    (isLoginAllowed cfg email ip tl (recordFailures cfg email ip (t1 :: ts) m)).1
        = .lockedOut cfg.lockoutDurationMs
    ∧ 0 < cfg.lockoutDurationMs
    ∧ (∀ m2 : AttemptMap, getAttemptCount email ip (clearAttempts email ip m2) = 0)
    ∧ (∀ m2 : AttemptMap,
        (isLoginAllowed cfg email ip tl (clearAttempts email ip m2)).1 = .allowed none)
    ∧ (isLoginAllowed cfg email ip (tl + cfg.lockoutDurationMs)
        (recordFailures cfg email ip (t1 :: ts) m)).1 = .allowed none
    ∧ mapGet (isLoginAllowed cfg email ip (tl + cfg.lockoutDurationMs)
        (recordFailures cfg email ip (t1 :: ts) m)).2 (getAttemptKey email ip) = none := by
  have hstep := recordFailedAttempt_from_none cfg email ip t1 m hm hw0
  obtain ⟨lu2, hget, hlockP, _, hnilP⟩ :=
    recordFailures_inv cfg email ip t1 ts hts 1
      (if cfg.maxAttempts ≤ 1 then some (t1 + cfg.lockoutDurationMs) else none)
      (recordFailedAttempt cfg email ip t1 m).2 hstep
  have hgetN : mapGet (recordFailures cfg email ip (t1 :: ts) m) (getAttemptKey email ip)
      = some ⟨cfg.maxAttempts, t1, lu2⟩ := by
    rw [← hlen]
    have : 1 + ts.length = ts.length + 1 := by omega
    simpa [recordFailures, Nat.add_comm] using hget
  have hlu2 : lu2 = some (tl + cfg.lockoutDurationMs) := by
    cases ts with
    | nil =>
      simp only [List.getLast?_singleton, Option.some.injEq] at hlast
      subst hlast
      have h1 : cfg.maxAttempts ≤ 1 := by
        simp only [List.length_nil] at hlen
        omega
      rw [hnilP rfl]
      simp [h1]
    | cons r rs =>
      have hlast2 : (r :: rs).getLast? = some tl := by
        simpa [List.getLast?_cons_cons] using hlast
      exact hlockP tl hlast2 (by simp [← hlen])
  rw [hlu2] at hgetN
  refine ⟨?_, hlock, ?_, ?_, ?_, ?_⟩
  · have hln : lockedNow tl
        ⟨cfg.maxAttempts, t1, some (tl + cfg.lockoutDurationMs)⟩ = true := by
      simp [lockedNow, hlock]
    simp [isLoginAllowed, hgetN, hln, add_sub_cancel_left]
  · intro m2
    simp [getAttemptCount, clearAttempts, mapGet_mapDelete_self]
  · intro m2
    simp [isLoginAllowed, clearAttempts, mapGet_mapDelete_self]
  · have hln : lockedNow (tl + cfg.lockoutDurationMs)
        ⟨cfg.maxAttempts, t1, some (tl + cfg.lockoutDurationMs)⟩ = false := by
      simp [lockedNow]
    simp [isLoginAllowed, hgetN, hln]
  · have hln : lockedNow (tl + cfg.lockoutDurationMs)
        ⟨cfg.maxAttempts, t1, some (tl + cfg.lockoutDurationMs)⟩ = false := by
      simp [lockedNow]
    simp [isLoginAllowed, hgetN, hln, mapGet_mapDelete_self]

/-- Claim C6 witness: default config, five failures at times 0…4 for
`("locked@example.com", "10.0.0.1")`, checked at time 4. -/
theorem claim_C6_rate_limit_lockout_witness :
    (isLoginAllowed defaultRateLimitConfig "locked@example.com" "10.0.0.1" 4
        (recordFailures defaultRateLimitConfig "locked@example.com" "10.0.0.1"
          [0, 1, 2, 3, 4] [])).1
      = .lockedOut defaultRateLimitConfig.lockoutDurationMs := by
  have h := claim_C6_rate_limit_lockout defaultRateLimitConfig
    "locked@example.com" "10.0.0.1" 0 4 [1, 2, 3, 4] []
    (by decide) (by decide) (by decide) (by decide) (by decide) (by decide)
  exact h.1

/-- Claim C10: while a key is Locked with a future deadline, `login`
returns the rate-limited error without touching the attempt map: the
count is not incremented and `lockedUntil` stays fixed. -/
theorem claim_C10_lockout_not_extended (cfg : RateLimitConfig) (scfg : SessionConfig)
    (credentials : CredentialOutcome) (email password ip : String)
    (ua : Option String) (tok : String) (now : Time) (m : AttemptMap) (st : Store)
    (entry : AttemptRecord) (lu : Time)
    (hemail : email.isEmpty = false) (hpwd : password.isEmpty = false)
    (hm : mapGet m (getAttemptKey email ip) = some entry)
    (hlu : entry.lockedUntil = some lu) (hnow : now < lu) :
    login cfg scfg credentials email password ip ua tok now m st
      = (.rateLimited, m, st) := by
  have hln : lockedNow now entry = true := by
    simp [lockedNow, hlu, hnow]
  simp [login, hemail, hpwd, isLoginAllowed, hm, hln, RateCheck.isAllowed]

/-- Claim C10 witness: a locked key at time 100 with deadline 1000. -/
theorem claim_C10_lockout_not_extended_witness :
    login defaultRateLimitConfig defaultSessionConfig .invalidCredentials
        "a@b.com" "pw" "1.2.3.4" none "tok" 100
        [(getAttemptKey "a@b.com" "1.2.3.4", ⟨5, 0, some 1000⟩)]
        ⟨[], [], [], [], 0, 0, 0⟩
      = (.rateLimited,
          [(getAttemptKey "a@b.com" "1.2.3.4", ⟨5, 0, some 1000⟩)],
          ⟨[], [], [], [], 0, 0, 0⟩) := by
  exact claim_C10_lockout_not_extended defaultRateLimitConfig defaultSessionConfig
    .invalidCredentials "a@b.com" "pw" "1.2.3.4" none "tok" 100
    [(getAttemptKey "a@b.com" "1.2.3.4", ⟨5, 0, some 1000⟩)]
    ⟨[], [], [], [], 0, 0, 0⟩ ⟨5, 0, some 1000⟩ 1000
    (by decide) (by decide) (by decide) (by decide) (by decide)

/-- Marking a user's unused reset tokens used leaves that user with no
usable token among the pre-existing rows, at any time. -/
theorem usableResetTokensFor_markUsed (uid : Nat) (now2 : Time)
    (tokens : List ResetToken) :
    usableResetTokensFor uid now2 (markUserResetTokensUsed uid tokens) = [] := by
  rw [usableResetTokensFor, List.filter_eq_nil_iff]
  intro t ht
  obtain ⟨t0, ht0, heq⟩ := List.mem_map.mp ht
  subst heq
  by_cases h1 : t0.userId = uid
  · by_cases h2 : t0.used = true
    · simp [h1, h2]
    · simp [h1, h2]
  · simp [h1]

/-- Claim C5: after any `requestPasswordReset` that found the user, the
user has at most one usable reset token at any time, and — until the new
token's expiry — exactly the freshly inserted one. -/
theorem claim_C5_single_usable_reset_token (cfg : ResetConfig)
    (email plainToken : String) (mailFails : Bool) (now : Time) (st : Store) (u : User)
    (hu : findUserByEmail st.users (jsTrim (jsToLower email)) = some u) :
    (∀ now2 : Time,
      (usableResetTokensFor u.id now2
          (requestPasswordReset cfg email plainToken mailFails now st).2.resetTokens).length ≤ 1)
    ∧ (∀ now2 : Time,
        ¬ (now + (cfg.tokenExpirationHours : Time) * hourMs < now2) →
        usableResetTokensFor u.id now2
            (requestPasswordReset cfg email plainToken mailFails now st).2.resetTokens
          = [⟨st.nextResetTokenId, u.id, hashToken plainToken,
              now + (cfg.tokenExpirationHours : Time) * hourMs, false⟩]) := by
  have hst : (requestPasswordReset cfg email plainToken mailFails now st).2.resetTokens
      = markUserResetTokensUsed u.id st.resetTokens
        ++ [⟨st.nextResetTokenId, u.id, hashToken plainToken,
            now + (cfg.tokenExpirationHours : Time) * hourMs, false⟩] := by
    cases mailFails <;> simp [requestPasswordReset, hu]
  have h0 : ∀ now2 : Time, usableResetTokensFor u.id now2
      (markUserResetTokensUsed u.id st.resetTokens) = [] :=
    fun now2 => usableResetTokensFor_markUsed u.id now2 st.resetTokens
  constructor
  · intro now2
    have hh := h0 now2
    rw [usableResetTokensFor] at hh
    rw [hst, usableResetTokensFor, List.filter_append, hh]
    by_cases hq : now + (cfg.tokenExpirationHours : Time) * hourMs < now2
    · simp [List.filter, hq]
    · simp [List.filter, hq]
  · intro now2 h2
    have hh := h0 now2
    rw [usableResetTokensFor] at hh
    rw [hst, usableResetTokensFor, List.filter_append, hh]
    simp [List.filter, h2]

/-- Claim C5 witness: issuing a fresh token over an existing unused one
for the same user on the concrete store. -/
theorem claim_C5_single_usable_reset_token_witness :
    usableResetTokensFor 1 600
        (requestPasswordReset defaultResetConfig "Alice@Example.com" "newreset"
          false 500 baseStore).2.resetTokens
      = [⟨201, 1, hashToken "newreset", 500 + (1 : Time) * hourMs, false⟩] := by
  have h := claim_C5_single_usable_reset_token defaultResetConfig
    "Alice@Example.com" "newreset" false 500 baseStore aliceUser (by decide)
  exact h.2 600 (by decide)

/-- Claim C7: `requestPasswordReset` answers with the identical uniform
acknowledgement for an existing and a non-existing email, but
`resendVerificationEmail` answers an existing unverified account with
`'Verification email sent'` and a non-existing one with
`'If an account exists, a verification email has been sent'` — the two
success payloads are distinguishable, contradicting the code's own
"Don't reveal if email exists" comment. -/
theorem claim_C7_enumeration_divergence :
    (requestPasswordReset defaultResetConfig "alice@example.com" "t1" false 500 baseStore).1
      = (requestPasswordReset defaultResetConfig "ghost@example.com" "t1" false 500 baseStore).1
    ∧ (resendVerificationEmail 24 "bob@example.com" "v1" 500 baseStore).1
        = .success "Verification email sent"
    ∧ (resendVerificationEmail 24 "ghost@example.com" "v1" 500 baseStore).1
        = .success "If an account exists, a verification email has been sent"
    ∧ (resendVerificationEmail 24 "bob@example.com" "v1" 500 baseStore).1
        ≠ (resendVerificationEmail 24 "ghost@example.com" "v1" 500 baseStore).1 := by
  exact ⟨rfl, rfl, rfl, by decide⟩

/-- Claim C9 counterexample: when the mail dispatcher fails after the
token was stored, `requestPasswordReset` re-throws a failure instead of
returning the uniform success acknowledgement. -/
theorem claim_C9_counterexample :
    (requestPasswordReset defaultResetConfig "alice@example.com" "newreset"
        true 500 baseStore).1
      = Except.error "Failed to process password reset request" := by
  rfl

/-- Claim C9 amended: the token is stored before the mail dispatcher is
invoked (a failed send leaves exactly the same store as a successful one,
with the fresh token row present), but a mail-send failure is logged and
re-thrown as `'Failed to process password reset request'` rather than
being swallowed. -/
theorem claim_C9_store_before_send (cfg : ResetConfig) (email plainToken : String)
    (now : Time) (st : Store) (u : User)
    (hu : findUserByEmail st.users (jsTrim (jsToLower email)) = some u) :
    (requestPasswordReset cfg email plainToken true now st).2
      = (requestPasswordReset cfg email plainToken false now st).2
    ∧ (⟨st.nextResetTokenId, u.id, hashToken plainToken,
        now + (cfg.tokenExpirationHours : Time) * hourMs, false⟩ : ResetToken)
        ∈ (requestPasswordReset cfg email plainToken true now st).2.resetTokens
    ∧ (requestPasswordReset cfg email plainToken true now st).1
        = .error "Failed to process password reset request" := by
  refine ⟨?_, ?_, ?_⟩ <;> simp [requestPasswordReset, hu]

/-- Claim C9 witness for the amended statement, on the concrete store. -/
theorem claim_C9_store_before_send_witness :
    (requestPasswordReset defaultResetConfig "alice@example.com" "newreset"
        true 500 baseStore).2
      = (requestPasswordReset defaultResetConfig "alice@example.com" "newreset"
        false 500 baseStore).2 := by
  exact (claim_C9_store_before_send defaultResetConfig "alice@example.com"
    "newreset" 500 baseStore aliceUser (by decide)).1

/-- Claim C1 counterexample: the live legacy row stores the raw token
`"rawtok"`; validating `"rawtok"` succeeds although no session row stores
the SHA-256 hash of the candidate, refuting the "only if a row stores the
hash of the candidate" direction of the claim. -/
theorem claim_C1_counterexample :
    (validateSession "rawtok" 500 baseStore).1.isValid = true
    ∧ ∀ s ∈ baseStore.sessions, s.token ≠ hashToken "rawtok" := by
  exact ⟨rfl, by decide⟩

/-- Claim C1 amended: for a store whose sessions all have their owning
user present (the FK invariant), `validateSession` returns a valid result
iff some session row stores the SHA-256 hash of the candidate OR — via
the legacy fallback — the raw candidate itself, with expiry strictly in
the future and the revoked flag unset; every other candidate yields the
invalid result. -/
theorem claim_C1_validate_iff (tok : String) (now : Time) (st : Store)
    (hfk : ∀ s ∈ st.sessions, (findUser st.users s.userId).isSome = true) :
    (validateSession tok now st).1.isValid = true
      ↔ ∃ s ∈ st.sessions, (s.token = hashToken tok ∨ s.token = tok) ∧
          now < s.expiresAt ∧ s.isRevoked = false := by
  constructor
  · exact exists_of_validateSession_isValid tok now st
  · rintro ⟨t, ht, hdisj, hexp, hrev⟩
    exact validateSession_isValid_of_exists tok now st
      ⟨t, ht, hdisj, hexp, hrev, hfk t ht⟩

/-- Claim C1 witness for the amended statement, on the concrete store. -/
theorem claim_C1_validate_iff_witness :
    (validateSession "tokA" 500 baseStore).1.isValid = true
      ↔ ∃ s ∈ baseStore.sessions, (s.token = hashToken "tokA" ∨ s.token = "tokA") ∧
          (500 : Time) < s.expiresAt ∧ s.isRevoked = false := by
  exact claim_C1_validate_iff "tokA" 500 baseStore (by decide)

/-- Claim C2: on a valid token (and passing validation), a `resetPassword`
in which no transaction step fails succeeds and leaves the user with zero
active sessions — at any time — while every other user's sessions are
untouched, the matching reset token is marked used, and the user's
password hash is replaced; if any of the three transaction steps fails,
the result is the re-thrown error and the store is exactly the
pre-transaction store (full rollback, no partial state). -/
theorem claim_C2_reset_atomic (cfg : ResetConfig)
    (token newPassword confirmPassword newHash : String) (failures : TxFailures)
    (now : Time) (st : Store) (uid : Nat) (em : String) (tid : Nat)
    (hcfg : cfg.invalidateSessionsOnPasswordReset = true)
    (hmatch : (validatePasswordMatch newPassword confirmPassword).valid = true)
    (hstrong : (validatePassword newPassword).valid = true)
    (htok : validateResetToken token now st = .valid uid em tid) :
    (failures = noTxFailures →
      (resetPassword cfg token newPassword confirmPassword newHash failures now st).1
        = .success "Password has been reset successfully. Please log in with your new password."
      ∧ (∀ now2 : Time, activeSessionCount uid now2
          (resetPassword cfg token newPassword confirmPassword newHash failures now st).2 = 0)
      ∧ (∀ w : Nat, w ≠ uid →
          (resetPassword cfg token newPassword confirmPassword newHash failures now st).2.sessions.filter
              (fun s => s.userId == w)
            = st.sessions.filter (fun s => s.userId == w))
      ∧ (∀ t ∈ (resetPassword cfg token newPassword confirmPassword newHash failures now st).2.resetTokens,
          t.token = hashToken token → t.used = true)
      ∧ (∀ u2 ∈ (resetPassword cfg token newPassword confirmPassword newHash failures now st).2.users,
          u2.id = uid → u2.passwordHash = newHash))
    ∧ (failures ≠ noTxFailures →
        resetPassword cfg token newPassword confirmPassword newHash failures now st
          = (.thrown "Failed to reset password", st)) := by
  constructor
  · intro hf
    subst hf
    have hred : resetPassword cfg token newPassword confirmPassword newHash noTxFailures now st
        = (.success "Password has been reset successfully. Please log in with your new password.",
            { st with
              users := setUserPassword uid newHash st.users
              resetTokens := markResetTokenUsedByHash (hashToken token) st.resetTokens
              sessions := deleteUserSessions uid st.sessions }) := by
      simp [resetPassword, hmatch, hstrong, htok, hcfg, noTxFailures]
    rw [hred]
    refine ⟨rfl, ?_, ?_, ?_, ?_⟩
    · intro now2
      simp only [activeSessionCount, deleteUserSessions, List.filter_filter]
      rw [List.length_eq_zero]
      rw [List.filter_eq_nil_iff]
      intro s _ hs
      simp only [Bool.and_eq_true, bne_iff_ne, beq_iff_eq, ne_eq] at hs
      tauto
    · intro w hw
      simp only [deleteUserSessions, List.filter_filter]
      refine List.filter_congr ?_
      intro s _
      by_cases hsw : s.userId = w
      · simp [hsw, hw]
      · simp [hsw]
    · intro t ht hthash
      simp only [markResetTokenUsedByHash] at ht
      obtain ⟨t0, _, heq⟩ := List.mem_map.mp ht
      by_cases hc : t0.token = hashToken token
      · rw [← heq]; simp [hc]
      · rw [← heq] at hthash
        simp [hc] at hthash
    · intro u2 hu2 hid
      simp only [setUserPassword] at hu2
      obtain ⟨u0, _, heq⟩ := List.mem_map.mp hu2
      by_cases hc : u0.id = uid
      · rw [← heq]; simp [hc]
      · rw [← heq] at hid
        simp [hc] at hid
  · intro hf
    obtain ⟨f1, f2, f3⟩ := failures
    cases f1 <;> cases f2 <;> cases f3
    · exact absurd rfl hf
    all_goals simp [resetPassword, hmatch, hstrong, htok]

/-- Claim C2 witness: concrete reset on the fixture store (user 1 holds
two active sessions beforehand; none remain). -/
theorem claim_C2_reset_atomic_witness :
    activeSessionCount 1 500
      (resetPassword defaultResetConfig "oldreset" "GoodPass1" "GoodPass1"
        "bcrypt-new" noTxFailures 500 baseStore).2 = 0 := by
  have h := claim_C2_reset_atomic defaultResetConfig "oldreset" "GoodPass1"
    "GoodPass1" "bcrypt-new" noTxFailures 500 baseStore 1 "alice@example.com" 100
    (by decide) (by decide) (by decide) (by decide)
  exact (h.1 rfl).2.1 500

/-- Claim C8: refreshing a still-valid session succeeds with expiry
`now + expiresInMs`, changes no column other than `expires_at` and
`last_activity_at` on any row (in particular every token value is
unchanged), and the same token keeps validating until the new expiry;
refreshing a token with no live matching session (in either
representation) fails and mutates nothing. -/
theorem claim_C8_refresh_frame (cfg : SessionConfig) (tok : String) (now : Time)
    (st : Store) :
    (∀ s, s ∈ st.sessions → s.token = hashToken tok → now < s.expiresAt →
      s.isRevoked = false →
      (refreshSession cfg tok now st).1 = ⟨true, some (now + cfg.expiresInMs)⟩
      ∧ (refreshSession cfg tok now st).2.sessions.map sessionIdentityFields
          = st.sessions.map sessionIdentityFields
      ∧ (refreshSession cfg tok now st).2.users = st.users
      ∧ (∀ u, u ∈ st.users → u.id = s.userId →
          ∀ now2 : Time, now2 < now + cfg.expiresInMs →
            (validateSession tok now2 (refreshSession cfg tok now st).2).1.isValid = true))
    ∧ ((∀ s ∈ st.sessions,
          ¬ ((s.token = hashToken tok ∨ s.token = tok) ∧ now < s.expiresAt ∧
              s.isRevoked = false)) →
        refreshSession cfg tok now st = (⟨false, none⟩, st)) := by
  constructor
  · intro s hs htok hexp hrev
    have hpred : (s.token == hashToken tok && sessionLive now s) = true := by
      simp [htok, sessionLive, hexp, hrev]
    have hcnt : 0 < liveTokenMatchCount (hashToken tok) now st :=
      List.length_pos_of_mem (List.mem_filter.mpr ⟨hs, hpred⟩)
    have hred : refreshSession cfg tok now st
        = (⟨true, some (now + cfg.expiresInMs)⟩,
            { st with sessions :=
                refreshApply (hashToken tok) now (now + cfg.expiresInMs) st.sessions }) := by
      simp [refreshSession, hcnt]
    rw [hred]
    refine ⟨rfl, ?_, rfl, ?_⟩
    · simp only [refreshApply, List.map_map]
      refine List.map_congr_left ?_
      intro a _
      by_cases hc : (a.token == hashToken tok && sessionLive now a) = true
      · simp [Function.comp, hc, sessionIdentityFields]
      · simp [Function.comp, hc]
    · intro u hu hid now2 hnow2
      apply validateSession_isValid_of_exists
      refine ⟨{ s with expiresAt := now + cfg.expiresInMs, lastActivityAt := now },
        ?_, Or.inl htok, by simpa using hnow2, by simpa using hrev, ?_⟩
      · simp only [refreshApply]
        have := List.mem_map_of_mem (fun a : Session =>
          if a.token == hashToken tok && sessionLive now a then
            { a with expiresAt := now + cfg.expiresInMs, lastActivityAt := now }
          else a) hs
        simpa [hpred] using this
      · simp only [findUser]
        exact List.find?_isSome.mpr ⟨u, hu, by simp [hid]⟩
  · intro h
    have hc1 : liveTokenMatchCount (hashToken tok) now st = 0 := by
      simp only [liveTokenMatchCount, List.length_eq_zero, List.filter_eq_nil_iff]
      intro s hsm hsp
      simp only [Bool.and_eq_true, beq_iff_eq, sessionLive, decide_eq_true_eq,
        Bool.not_eq_true'] at hsp
      exact h s hsm ⟨Or.inl hsp.1, hsp.2.1, hsp.2.2⟩
    have hc2 : liveTokenMatchCount tok now st = 0 := by
      simp only [liveTokenMatchCount, List.length_eq_zero, List.filter_eq_nil_iff]
      intro s hsm hsp
      simp only [Bool.and_eq_true, beq_iff_eq, sessionLive, decide_eq_true_eq,
        Bool.not_eq_true'] at hsp
      exact h s hsm ⟨Or.inr hsp.1, hsp.2.1, hsp.2.2⟩
    simp [refreshSession, hc1, hc2]

/-- Claim C8 witness: refreshing the live hashed session of the fixture
store at time 500 with a 100 ms lifetime. -/
theorem claim_C8_refresh_frame_witness :
    (refreshSession ⟨100, 0⟩ "tokA" 500 baseStore).1 = ⟨true, some 600⟩ := by
  exact ((claim_C8_refresh_frame ⟨100, 0⟩ "tokA" 500 baseStore).1 hashedSession
    (by decide) (by decide) (by decide) (by decide)).1

/-- Fold invariant of `minByCreated`: starting from `some acc`, the fold
returns an element of `{acc} ∪ l` whose `createdAt` is minimal. -/
theorem minByCreated_foldl_inv (l : List Session) :
    ∀ acc : Session,
      ∃ r, List.foldl (fun acc2 s =>
          match acc2 with
          | none => some s
          | some t => if s.createdAt < t.createdAt then some s else some t)
          (some acc) l = some r
        ∧ (r = acc ∨ r ∈ l) ∧ r.createdAt ≤ acc.createdAt
        ∧ ∀ t ∈ l, r.createdAt ≤ t.createdAt := by
  induction l with
  | nil =>
    intro acc
    exact ⟨acc, rfl, Or.inl rfl, le_refl _, by intro t ht; cases ht⟩
  | cons a rest ih =>
    intro acc
    by_cases hc : a.createdAt < acc.createdAt
    · obtain ⟨r, hr, hrmem, hracc, hrall⟩ := ih a
      refine ⟨r, by simpa [hc] using hr, ?_, ?_, ?_⟩
      · cases hrmem with
        | inl h => exact Or.inr (h ▸ List.mem_cons_self a rest)
        | inr h => exact Or.inr (List.mem_cons_of_mem a h)
      · exact le_trans hracc (le_of_lt hc)
      · intro t ht
        cases List.mem_cons.mp ht with
        | inl h => exact h ▸ hracc
        | inr h => exact hrall t h
    · obtain ⟨r, hr, hrmem, hracc, hrall⟩ := ih acc
      refine ⟨r, by simpa [hc] using hr, ?_, hracc, ?_⟩
      · cases hrmem with
        | inl h => exact Or.inl h
        | inr h => exact Or.inr (List.mem_cons_of_mem a h)
      · intro t ht
        cases List.mem_cons.mp ht with
        | inl h => exact h ▸ le_trans hracc (le_of_not_lt hc)
        | inr h => exact hrall t h

/-- With a strict minimum by creation time, `minByCreated` picks it. -/
theorem minByCreated_eq_strict_min (l : List Session) (s0 : Session)
    (hmem : s0 ∈ l)
    (hmin : ∀ t ∈ l, t ≠ s0 → s0.createdAt < t.createdAt) :
    minByCreated l = some s0 := by
  cases l with
  | nil => cases hmem
  | cons a rest =>
    obtain ⟨r, hr, hrmem, hracc, hrall⟩ := minByCreated_foldl_inv rest a
    have hfold : minByCreated (a :: rest) = some r := by
      simpa [minByCreated] using hr
    have hrin : r ∈ a :: rest := by
      cases hrmem with
      | inl h => exact h ▸ List.mem_cons_self a rest
      | inr h => exact List.mem_cons_of_mem a h
    have hrs0 : r = s0 := by
      by_contra hne
      have hlt : s0.createdAt < r.createdAt := hmin r hrin hne
      have hle : r.createdAt ≤ s0.createdAt := by
        cases List.mem_cons.mp hmem with
        | inl h => exact h ▸ hracc
        | inr h => exact hrall s0 h
      exact absurd hlt (not_lt.mpr hle)
    rw [hfold, hrs0]

/-- Revoking the (unique) row with id `sid` removes exactly one element
from any count of a predicate that the revoked copy fails. -/
theorem revokeById_eq_self (sid : Nat) (s : Session) (h : s.id ≠ sid) :
    revokeById sid s = s := by
  simp [revokeById, h]

theorem countP_map_revoke (p : Session → Bool) (sid : Nat) (l : List Session)
    (hpw : l.Pairwise (fun a b => a.id ≠ b.id)) (s0 : Session) (hmem : s0 ∈ l)
    (hid : s0.id = sid) (hp : p s0 = true)
    (hprev : p { s0 with isRevoked := true } = false) :
    (l.map (revokeById sid)).countP p = l.countP p - 1 := by
  induction l with
  | nil => cases hmem
  | cons a rest ih =>
    have ha : ∀ b ∈ rest, a.id ≠ b.id := List.pairwise_cons.mp hpw |>.1
    have hpw2 : rest.Pairwise (fun a b => a.id ≠ b.id) := List.pairwise_cons.mp hpw |>.2
    cases List.mem_cons.mp hmem with
    | inl h =>
      subst h
      have hmapid : rest.map (revokeById sid) = rest := by
        have h1 : rest.map (revokeById sid) = rest.map id :=
          List.map_congr_left (fun t ht => revokeById_eq_self sid t
            (fun hts => (ha t ht) (hid.trans hts.symm)))
        rw [h1, List.map_id]
      have hrv : revokeById sid s0 = { s0 with isRevoked := true } := by
        simp [revokeById, hid]
      rw [List.map_cons, hmapid, hrv, List.countP_cons, List.countP_cons, hprev, hp]
      simp
    | inr h =>
      have hane : a.id ≠ sid := fun has => (ha s0 h) (has.trans hid.symm)
      have hfa : revokeById sid a = a := revokeById_eq_self sid a hane
      have hpos : 0 < rest.countP p :=
        List.countP_pos_iff.mpr ⟨s0, h, hp⟩
      have ih2 := ih hpw2 h
      rw [List.map_cons, hfa, List.countP_cons, List.countP_cons, ih2]
      omega

/-- Claim C4: with a cap `C > 0` configured and the user already holding
exactly `C` active sessions with a strictly-oldest one `s0`,
`createSimpleSession` first revokes exactly `s0` (every other
pre-existing row survives unchanged) and then inserts the new live
session, leaving the user with exactly `C` active sessions again. -/
theorem claim_C4_fifo_eviction (cfg : SessionConfig) (uid : Nat) (newTok : String)
    (ip ua : Option String) (now : Time) (st : Store) (s0 : Session)
    (hcap : 0 < cfg.maxConcurrentSessions)
    (hcount : activeSessionCount uid now st = cfg.maxConcurrentSessions)
    (hlife : 0 < cfg.expiresInMs)
    (hpw : st.sessions.Pairwise (fun a b => a.id ≠ b.id))
    (hmem : s0 ∈ st.sessions) (huid : s0.userId = uid)
    (hlive : sessionLive now s0 = true)
    (hmin : ∀ t ∈ st.sessions, t.userId = uid → sessionLive now t = true →
        t ≠ s0 → s0.createdAt < t.createdAt) :
    activeSessionCount uid now (createSimpleSession cfg uid newTok ip ua now st).2
        = cfg.maxConcurrentSessions
    ∧ ({ s0 with isRevoked := true } : Session)
        ∈ (createSimpleSession cfg uid newTok ip ua now st).2.sessions
    ∧ (∀ t ∈ st.sessions, t ≠ s0 →
        t ∈ (createSimpleSession cfg uid newTok ip ua now st).2.sessions)
    ∧ (∃ snew ∈ (createSimpleSession cfg uid newTok ip ua now st).2.sessions,
        snew.token = hashToken newTok ∧ snew.userId = uid ∧
          sessionLive now snew = true) := by
  have hp0 : (fun s : Session => s.userId == uid && sessionLive now s) s0 = true := by
    simp [huid, hlive]
  have hold : oldestActiveSessionId uid now st = some s0.id := by
    have hmemF : s0 ∈ st.sessions.filter
        (fun s => s.userId == uid && sessionLive now s) :=
      List.mem_filter.mpr ⟨hmem, hp0⟩
    have hminF : ∀ t ∈ st.sessions.filter
        (fun s => s.userId == uid && sessionLive now s), t ≠ s0 →
        s0.createdAt < t.createdAt := by
      intro t ht hne
      obtain ⟨htm, htp⟩ := List.mem_filter.mp ht
      simp only [Bool.and_eq_true, beq_iff_eq] at htp
      exact hmin t htm htp.1 htp.2 hne
    simp [oldestActiveSessionId,
      minByCreated_eq_strict_min _ s0 hmemF hminF]
  have hcond : 0 < cfg.maxConcurrentSessions ∧
      cfg.maxConcurrentSessions ≤ activeSessionCount uid now st :=
    ⟨hcap, le_of_eq hcount.symm⟩
  have hred : (createSimpleSession cfg uid newTok ip ua now st).2.sessions
      = st.sessions.map (revokeById s0.id)
        ++ [⟨st.nextSessionId, uid, hashToken newTok, now + cfg.expiresInMs,
            false, now, now, ip, ua⟩] := by
    simp [createSimpleSession, if_pos hcond, revokeOldestSession, hold]
  have hsnewp : (fun s : Session => s.userId == uid && sessionLive now s)
      ⟨st.nextSessionId, uid, hashToken newTok, now + cfg.expiresInMs,
        false, now, now, ip, ua⟩ = true := by
    simp [sessionLive, hlife]
  refine ⟨?_, ?_, ?_, ?_⟩
  · have hcp : activeSessionCount uid now st
        = st.sessions.countP (fun s => s.userId == uid && sessionLive now s) := by
      rw [activeSessionCount, List.countP_eq_length_filter]
    have hrevp : (fun s : Session => s.userId == uid && sessionLive now s)
        { s0 with isRevoked := true } = false := by
      simp [sessionLive]
    have hmc := countP_map_revoke
      (fun s : Session => s.userId == uid && sessionLive now s) s0.id
      st.sessions hpw s0 hmem rfl hp0 hrevp
    have hpos : 0 < st.sessions.countP
        (fun s : Session => s.userId == uid && sessionLive now s) :=
      List.countP_pos_iff.mpr ⟨s0, hmem, hp0⟩
    have hlt : now < now + cfg.expiresInMs := lt_add_of_pos_right now hlife
    have hsingle : List.countP (fun s : Session => s.userId == uid && sessionLive now s)
        [⟨st.nextSessionId, uid, hashToken newTok, now + cfg.expiresInMs,
          false, now, now, ip, ua⟩] = 1 := by
      simp [List.countP_cons, sessionLive, hlt]
    rw [activeSessionCount, hred, ← List.countP_eq_length_filter,
      List.countP_append, hmc, hsingle]
    rw [hcp] at hcount
    omega
  · rw [hred]
    refine List.mem_append.mpr (Or.inl ?_)
    have himg : revokeById s0.id s0 = { s0 with isRevoked := true } := by
      simp [revokeById]
    exact himg ▸ List.mem_map_of_mem (revokeById s0.id) hmem
  · intro t ht hne
    rw [hred]
    refine List.mem_append.mpr (Or.inl ?_)
    have hsymm : Symmetric (fun a b : Session => a.id ≠ b.id) :=
      fun a b h h2 => h h2.symm
    have htid : t.id ≠ s0.id := List.Pairwise.forall hsymm hpw ht hmem hne
    exact (revokeById_eq_self s0.id t htid) ▸ List.mem_map_of_mem (revokeById s0.id) ht
  · refine ⟨⟨st.nextSessionId, uid, hashToken newTok, now + cfg.expiresInMs,
      false, now, now, ip, ua⟩, ?_, rfl, rfl, ?_⟩
    · rw [hred]
      exact List.mem_append.mpr (Or.inr (List.mem_singleton.mpr rfl))
    · simp [sessionLive, hlife]

/-- Claim C4 witness: cap 2, user 1 with two active sessions on the
fixture store; the older (`hashedSession`, created at 0) is evicted and
the count stays 2. -/
theorem claim_C4_fifo_eviction_witness :
    activeSessionCount 1 500
        (createSimpleSession ⟨100, 2⟩ 1 "tokC" none none 500 baseStore).2 = 2 := by
  exact (claim_C4_fifo_eviction ⟨100, 2⟩ 1 "tokC" none none 500 baseStore
    hashedSession (by decide) (by decide) (by decide) (by decide) (by decide)
    (by decide) (by decide) (by decide)).1

/-- Claim C3: a successful rotation of a live session (whose old token,
hashed, is stored on exactly that row, with no legacy raw copy and a
fresh replacement token) returns the new token with expiry
`now + expiresInMs`, at least the pre-rotation expiry; afterwards the OLD
token never validates again at any time — even before its original
expiry — while the NEW token validates for the same session and user
until the new expiry. -/
theorem claim_C3_rotate_kills_old_token (cfg : SessionConfig)
    (oldToken newToken : String) (now : Time) (st : Store) (s : Session) (u : User)
    (hs : s ∈ st.sessions)
    (hmatch : s.token = hashToken oldToken)
    (hexp : now < s.expiresAt) (hrev : s.isRevoked = false)
    (hexpLe : s.expiresAt ≤ now + cfg.expiresInMs)
    (hne : newToken ≠ oldToken)
    (huniq : ∀ t ∈ st.sessions, t.token = hashToken oldToken → t = s)
    (hnoraw : ∀ t ∈ st.sessions, t.token ≠ oldToken)
    (hnewraw : hashToken newToken ≠ oldToken)
    (hfresh : ∀ t ∈ st.sessions, t.token ≠ hashToken newToken)
    (hfku : findUser st.users s.userId = some u) :
    (rotateSessionToken cfg oldToken newToken now st).1
        = ⟨true, some newToken, some (now + cfg.expiresInMs)⟩
    ∧ s.expiresAt ≤ now + cfg.expiresInMs
    ∧ (∀ now2 : Time,
        (validateSession oldToken now2
          (rotateSessionToken cfg oldToken newToken now st).2).1.isValid = false)
    ∧ (∀ now2 : Time, now2 < now + cfg.expiresInMs →
        (validateSession newToken now2
            (rotateSessionToken cfg oldToken newToken now st).2).1
          = .valid s.id s.userId u.email (u.role.getD "user")
              (now + cfg.expiresInMs)) := by
  have hpred : (s.token == hashToken oldToken && sessionLive now s) = true := by
    simp [hmatch, sessionLive, hexp, hrev]
  have hcnt : 0 < liveTokenMatchCount (hashToken oldToken) now st :=
    List.length_pos_of_mem (List.mem_filter.mpr ⟨hs, hpred⟩)
  have hred : rotateSessionToken cfg oldToken newToken now st
      = (⟨true, some newToken, some (now + cfg.expiresInMs)⟩,
          { st with sessions := rotateApply (hashToken oldToken) (hashToken newToken) now (now + cfg.expiresInMs) st.sessions }) := by
    simp [rotateSessionToken, hcnt]
  have himg : ∀ x ∈ (rotateSessionToken cfg oldToken newToken now st).2.sessions,
      ∃ t0 ∈ st.sessions,
        ((t0.token == hashToken oldToken && sessionLive now t0) = true ∧
          x = { t0 with
                token := hashToken newToken
                expiresAt := now + cfg.expiresInMs
                lastActivityAt := now })
        ∨ ((t0.token == hashToken oldToken && sessionLive now t0) = false ∧ x = t0) := by
    intro x hx
    rw [hred] at hx
    simp only [rotateApply] at hx
    obtain ⟨t0, ht0, heq⟩ := List.mem_map.mp hx
    refine ⟨t0, ht0, ?_⟩
    by_cases hc : (t0.token == hashToken oldToken && sessionLive now t0) = true
    · refine Or.inl ⟨hc, ?_⟩
      rw [← heq]; simp [hc]
    · refine Or.inr ⟨by simpa using hc, ?_⟩
      rw [← heq]; simp [hc]
  refine ⟨by rw [hred], hexpLe, ?_, ?_⟩
  · intro now2
    by_contra hval
    have hval2 : (validateSession oldToken now2
        (rotateSessionToken cfg oldToken newToken now st).2).1.isValid = true :=
      Bool.not_eq_false _ |>.mp hval
    obtain ⟨t, ht, hdisj, _, _⟩ :=
      exists_of_validateSession_isValid oldToken now2 _ hval2
    obtain ⟨t0, ht0, hcase⟩ := himg t ht
    cases hcase with
    | inl h =>
      obtain ⟨_, hxeq⟩ := h
      cases hdisj with
      | inl hh =>
        rw [hxeq] at hh
        exact hne (hashToken_injective hh)
      | inr hh =>
        rw [hxeq] at hh
        exact hnewraw hh
    | inr h =>
      obtain ⟨hc0, hxeq⟩ := h
      cases hdisj with
      | inl hh =>
        rw [hxeq] at hh
        have ht0s : t0 = s := huniq t0 ht0 hh
        rw [ht0s] at hc0
        rw [hpred] at hc0
        cases hc0
      | inr hh =>
        rw [hxeq] at hh
        exact hnoraw t0 ht0 hh
  · intro now2 hlt2
    have hmemCopy : ({ s with
        token := hashToken newToken
        expiresAt := now + cfg.expiresInMs
        lastActivityAt := now } : Session)
        ∈ (rotateSessionToken cfg oldToken newToken now st).2.sessions := by
      rw [hred]
      simp only [rotateApply]
      have := List.mem_map_of_mem (fun a : Session =>
        if a.token == hashToken oldToken && sessionLive now a then
          { a with
            token := hashToken newToken
            expiresAt := now + cfg.expiresInMs
            lastActivityAt := now }
        else a) hs
      simpa [hpred] using this
    have husers : (rotateSessionToken cfg oldToken newToken now st).2.users = st.users := by
      rw [hred]
    have hrowmem : (({ s with
        token := hashToken newToken
        expiresAt := now + cfg.expiresInMs
        lastActivityAt := now } : Session), u)
        ∈ sessionRows (hashToken newToken) now2
            (rotateSessionToken cfg oldToken newToken now st).2 := by
      refine (mem_sessionRows _ _ _ _).mpr ⟨hmemCopy, rfl, ?_, ?_⟩
      · simp [sessionLive, hlt2, hrev]
      · rw [husers]; exact hfku
    have hne2 : sessionRows (hashToken newToken) now2
        (rotateSessionToken cfg oldToken newToken now st).2 ≠ [] :=
      List.ne_nil_of_mem hrowmem
    obtain ⟨x, hx, hxmem⟩ := head?_some_mem _ hne2
    obtain ⟨hx1mem, hx1tok, hx1live, hx1find⟩ := (mem_sessionRows _ _ _ _).mp hxmem
    have hx1 : x.1 = { s with
        token := hashToken newToken
        expiresAt := now + cfg.expiresInMs
        lastActivityAt := now } := by
      obtain ⟨t0, ht0, hcase⟩ := himg x.1 hx1mem
      cases hcase with
      | inl h =>
        obtain ⟨hc0, hxeq⟩ := h
        have ht0tok : t0.token = hashToken oldToken := by
          have := (Bool.and_eq_true _ _).mp hc0 |>.1
          exact eq_of_beq this
        have ht0s : t0 = s := huniq t0 ht0 ht0tok
        rw [hxeq, ht0s]
      | inr h =>
        obtain ⟨_, hxeq⟩ := h
        rw [hxeq] at hx1tok
        exact absurd hx1tok (hfresh t0 ht0)
    have hx2 : x.2 = u := by
      rw [hx1] at hx1find
      simp only at hx1find
      rw [husers] at hx1find
      rw [hfku] at hx1find
      exact (Option.some.inj hx1find).symm
    unfold validateSession
    rw [hx]
    cases hxp : x with
    | mk x1 x2 =>
      rw [hxp] at hx1 hx2
      simp only [hx1, hx2] at *
      simp [sessionHit, hx1, hx2]

/-- Claim C3 witness: rotating `"tokA"` to `"tokB"` on the fixture store
at time 500 with the default 24 h lifetime. -/
theorem claim_C3_rotate_kills_old_token_witness :
    (rotateSessionToken defaultSessionConfig "tokA" "tokB" 500 baseStore).1
      = ⟨true, some "tokB", some (500 + 86400000)⟩ := by
  exact (claim_C3_rotate_kills_old_token defaultSessionConfig "tokA" "tokB" 500
    baseStore hashedSession aliceUser (by decide) (by decide) (by decide)
    (by decide) (by decide) (by decide) (by decide) (by decide) (by decide)
    (by decide) (by decide)).1

end Form
